import Mathlib

/-!
Verification development for the QR code generation service
(`qr_service.py`, class `QRCodeService`).

Python strings are modelled as lists of Unicode code points (`List Nat`),
Python numbers as rationals, and byte strings as lists of naturals below 256.
External library calls (qrcode, PIL, base64) that are not part of the
repository source are modelled from the specification; each such definition
carries a doc comment saying so.
-/

namespace QRGen

/-- A Python string, modelled as the list of its Unicode code points. -/
def pyStr (s : String) : List Nat := s.data.map Char.toNat

/-- Modelled from the spec: Python `str.lower` on one code point (ASCII range). -/
def pyLowerChar (c : Nat) : Nat := if 65 ≤ c ∧ c ≤ 90 then c + 32 else c

/-- Modelled from the spec: Python `str.lower`. -/
def pyLower (s : List Nat) : List Nat := s.map pyLowerChar

/-- Modelled from the spec: Python `str.upper` on one code point (ASCII range). -/
def pyUpperChar (c : Nat) : Nat := if 97 ≤ c ∧ c ≤ 122 then c - 32 else c

/-- Modelled from the spec: Python `str.upper`. -/
def pyUpper (s : List Nat) : List Nat := s.map pyUpperChar

/-- The Python exception kind raised by the service's own validation code. -/
inductive PyErr
  | valueError
deriving DecidableEq, Repr

instance {α β : Type} [DecidableEq α] [DecidableEq β] : DecidableEq (Except α β)
  | .error x, .error y => decidable_of_iff (x = y) (by simp)
  | .error _, .ok _ => isFalse (by simp)
  | .ok _, .error _ => isFalse (by simp)
  | .ok x, .ok y => decidable_of_iff (x = y) (by simp)

/-- An RGB triple whose channels are Python numbers, modelled as rationals. -/
abbrev RGBv := ℚ × ℚ × ℚ

/-- Color input accepted by `_parse_color`: a Python `str`, or a
list/tuple of numeric channels. -/
inductive ColorInput
  | str (s : List Nat)
  | rgb (cs : List ℚ)

/-- The `COLOR_MAP` class attribute of `QRCodeService` (source lines 55-70). -/
def COLOR_MAP : List (List Nat × RGBv) :=
  [ (pyStr "black",   ((0 : ℚ), 0, 0))
  , (pyStr "white",   ((255 : ℚ), 255, 255))
  , (pyStr "red",     ((255 : ℚ), 0, 0))
  , (pyStr "green",   ((0 : ℚ), 128, 0))
  , (pyStr "blue",    ((0 : ℚ), 0, 255))
  , (pyStr "yellow",  ((255 : ℚ), 255, 0))
  , (pyStr "cyan",    ((0 : ℚ), 255, 255))
  , (pyStr "magenta", ((255 : ℚ), 0, 255))
  , (pyStr "orange",  ((255 : ℚ), 165, 0))
  , (pyStr "purple",  ((128 : ℚ), 0, 128))
  , (pyStr "pink",    ((255 : ℚ), 192, 203))
  , (pyStr "brown",   ((165 : ℚ), 42, 42))
  , (pyStr "gray",    ((128 : ℚ), 128, 128))
  , (pyStr "grey",    ((128 : ℚ), 128, 128)) ]

/-- Python `dict` lookup over an association list of string keys. -/
def lookupColor (k : List Nat) : List (List Nat × RGBv) → Option RGBv
  | [] => none
  | (k', v) :: rest => if k = k' then some v else lookupColor k rest

/-- Whether a code point is a hexadecimal digit (`0-9`, `a-f`, `A-F`). -/
def isHexDig (c : Nat) : Bool :=
  (48 ≤ c && c ≤ 57) || (97 ≤ c && c ≤ 102) || (65 ≤ c && c ≤ 70)

/-- Whether a code point is a lowercase-or-digit hexadecimal digit. -/
def isHexDigLower (c : Nat) : Bool :=
  (48 ≤ c && c ≤ 57) || (97 ≤ c && c ≤ 102)

/-- Value of one hexadecimal digit. -/
def hexVal (c : Nat) : Nat :=
  if c ≤ 57 then c - 48 else if c ≤ 70 then c - 55 else c - 87

/-- Modelled from the spec: the Python builtin `int(s, 16)` on plain strings of
hexadecimal digits — fails (raises ValueError) on an empty string or any
non-hex-digit character. -/
def pyIntHex (s : List Nat) : Option Nat :=
  if s ≠ [] ∧ s.all isHexDig then
    some (s.foldl (fun acc c => 16 * acc + hexVal c) 0)
  else none

/-- Python slice `l[i:j]` for `0 ≤ i ≤ j`. -/
def pySlice (l : List Nat) (i j : Nat) : List Nat := (l.drop i).take (j - i)

/-- The `_hex_to_rgb` method (source lines 73-79): strips leading `#`,
expands 3-digit shorthand by duplicating each digit, then parses the three
2-character slices at offsets 0, 2, 4. -/
def hex_to_rgb (hex_color : List Nat) : Option RGBv :=
  let h := hex_color.dropWhile (fun c => c == 35)
  let h := if h.length = 3 then h.flatMap (fun c => [c, c]) else h
  match pyIntHex (pySlice h 0 2), pyIntHex (pySlice h 2 4), pyIntHex (pySlice h 4 6) with
  | some r, some g, some b => some ((r : ℚ), (g : ℚ), (b : ℚ))
  | _, _, _ => none

/-- The `_parse_color` method (source lines 81-109). Strings are looked up in
`COLOR_MAP` (lowercased), else treated as hex after prepending `#` when absent,
with the length restricted to 4 or 7; lists/tuples of three in-range numeric
channels are returned as-is; everything else raises ValueError. -/
def parse_color : ColorInput → Except PyErr RGBv
  | .str s =>
    match lookupColor (pyLower s) COLOR_MAP with
    | some rgb => .ok rgb
    | none =>
      let c := if s.head? = some 35 then s else 35 :: s
      if c.length ≠ 4 ∧ c.length ≠ 7 then .error .valueError
      else
        match hex_to_rgb c with
        | some rgb => .ok rgb
        | none => .error .valueError
  | .rgb cs =>
    match cs with
    | [a, b, c] =>
      if 0 ≤ a ∧ a ≤ 255 ∧ 0 ≤ b ∧ b ≤ 255 ∧ 0 ≤ c ∧ c ≤ 255 then .ok (a, b, c)
      else .error .valueError
    | _ => .error .valueError

lemma pyLowerChar_hexDig {c : Nat} (h : isHexDig c = true) :
    isHexDigLower (pyLowerChar c) = true := by
  simp only [isHexDig, Bool.or_eq_true, Bool.and_eq_true, decide_eq_true_eq] at h
  simp only [isHexDigLower, pyLowerChar, Bool.or_eq_true, Bool.and_eq_true, decide_eq_true_eq]
  split <;> omega

lemma pyLower_all_hexDig {s : List Nat} (h : s.all isHexDig = true) :
    (pyLower s).all isHexDigLower = true := by
  simp only [pyLower, List.all_map, List.all_eq_true, Function.comp] at h ⊢
  exact fun c hc => pyLowerChar_hexDig (h c hc)

lemma lookupColor_eq_none {k : List Nat} {m : List (List Nat × RGBv)}
    (h : ∀ p ∈ m, p.1 ≠ k) : lookupColor k m = none := by
  induction m with
  | nil => rfl
  | cons p rest ih =>
    simp only [lookupColor]
    rw [if_neg (fun hk => h p (by simp) hk.symm)]
    exact ih fun q hq => h q (by simp [hq])

lemma colorMap_lookup_none (k : List Nat)
    (hk : k.all isHexDigLower = true ∨ k.head? = some 35) :
    lookupColor k COLOR_MAP = none := by
  apply lookupColor_eq_none
  intro p hp heq
  have hk' : p.1.all isHexDigLower = true ∨ p.1.head? = some 35 := by
    rw [heq]; exact hk
  clear hk heq
  fin_cases hp <;> revert hk' <;> decide

lemma hexDig_ne_35 {a : Nat} (ha : isHexDig a = true) : a ≠ 35 := by
  simp only [isHexDig, Bool.or_eq_true, Bool.and_eq_true, decide_eq_true_eq] at ha
  omega

/-- With a hex-digit string, the color-name lookup always misses and
`_parse_color` reaches the hex-parsing path on `'#' :: s`, whether or not
the caller already supplied the leading `#`. -/
lemma parse_color_hexstr (s : List Nat) (hall : s.all isHexDig = true) (hne : s ≠ []) :
    parse_color (.str s) = parse_color (.str (35 :: s)) ∧
    parse_color (.str (35 :: s)) =
      (if (35 :: s).length ≠ 4 ∧ (35 :: s).length ≠ 7 then .error .valueError
       else match hex_to_rgb (35 :: s) with
            | some rgb => .ok rgb
            | none => .error .valueError) := by
  obtain ⟨a, t, rfl⟩ : ∃ a t, s = a :: t := by
    cases s with
    | nil => exact absurd rfl hne
    | cons a t => exact ⟨a, t, rfl⟩
  have ha : isHexDig a = true := by
    simp only [List.all_cons, Bool.and_eq_true] at hall
    exact hall.1
  have hlook : lookupColor (pyLower (a :: t)) COLOR_MAP = none :=
    colorMap_lookup_none _ (Or.inl (pyLower_all_hexDig hall))
  have hlook2 : lookupColor (pyLower (35 :: a :: t)) COLOR_MAP = none := by
    refine colorMap_lookup_none _ (Or.inr ?_)
    simp [pyLower, pyLowerChar]
  constructor
  · simp only [parse_color, hlook, hlook2, List.head?_cons, Option.some.injEq]
    rw [if_neg (hexDig_ne_35 ha)]
    simp
  · simp only [parse_color, hlook2, List.head?_cons, Option.some.injEq]
    simp

lemma dropWhile_35_cons (a : Nat) (t : List Nat) (ha : a ≠ 35) :
    (35 :: a :: t).dropWhile (fun c => c == 35) = a :: t := by
  have h : (a == 35) = false := beq_eq_false_iff_ne.mpr ha
  simp [List.dropWhile, h]

lemma length_eq_six {l : List Nat} (h : l.length = 6) :
    ∃ a b c d e f, l = [a, b, c, d, e, f] := by
  rcases l with _ | ⟨a, _ | ⟨b, _ | ⟨c, _ | ⟨d, _ | ⟨e, _ | ⟨f, _ | ⟨g, rest⟩⟩⟩⟩⟩⟩⟩ <;>
    simp_all

lemma hex_to_rgb_hex3 (a b c : Nat)
    (ha : isHexDig a = true) (hb : isHexDig b = true) (hc : isHexDig c = true) :
    hex_to_rgb (35 :: [a, b, c]) = hex_to_rgb (35 :: [a, a, b, b, c, c]) ∧
    ∃ rgb, hex_to_rgb (35 :: [a, b, c]) = some rgb := by
  have h1 := dropWhile_35_cons a [b, c] (hexDig_ne_35 ha)
  have h2 := dropWhile_35_cons a [a, b, b, c, c] (hexDig_ne_35 ha)
  constructor
  · simp [hex_to_rgb, h1, h2]
  · simp [hex_to_rgb, h1, pySlice, pyIntHex, ha, hb, hc]

lemma hex_to_rgb_hex6 (a b c d e f : Nat)
    (ha : isHexDig a = true) (hb : isHexDig b = true) (hc : isHexDig c = true)
    (hd : isHexDig d = true) (he : isHexDig e = true) (hf : isHexDig f = true) :
    ∃ rgb, hex_to_rgb (35 :: [a, b, c, d, e, f]) = some rgb := by
  have h1 := dropWhile_35_cons a [b, c, d, e, f] (hexDig_ne_35 ha)
  simp [hex_to_rgb, h1, pySlice, pyIntHex, ha, hb, hc, hd, he, hf]

/-- C3: `_parse_color("#fff")`, `"#ffffff"` and `"white"` all resolve to
(255,255,255); `"#12"` raises a ValueError; in general a non-empty string of
hexadecimal digits is accepted exactly when it has 3 digits (each digit
duplicated, giving the same result as the 6-digit expansion) or 6 digits,
with or without a leading `#`, and every other length raises a ValueError. -/
theorem C3_color_resolution :
    parse_color (.str (pyStr "#fff")) = .ok (255, 255, 255) ∧
    parse_color (.str (pyStr "#ffffff")) = .ok (255, 255, 255) ∧
    parse_color (.str (pyStr "white")) = .ok (255, 255, 255) ∧
    parse_color (.str (pyStr "#12")) = .error .valueError ∧
    ∀ s : List Nat, s.all isHexDig = true → s ≠ [] →
      ((s.length = 3 ∨ s.length = 6) →
        ∃ rgb, parse_color (.str s) = .ok rgb ∧
               parse_color (.str (35 :: s)) = .ok rgb) ∧
      (s.length = 3 →
        parse_color (.str s) = parse_color (.str (s.flatMap fun c => [c, c]))) ∧
      (s.length ≠ 3 → s.length ≠ 6 →
        parse_color (.str s) = .error .valueError ∧
        parse_color (.str (35 :: s)) = .error .valueError) := by
  refine ⟨by decide, by decide, by decide, by decide, ?_⟩
  intro s hall hne
  obtain ⟨hpq, hval⟩ := parse_color_hexstr s hall hne
  refine ⟨?_, ?_, ?_⟩
  · rintro (h3 | h6)
    · obtain ⟨a, b, c, rfl⟩ := List.length_eq_three.mp h3
      simp only [List.all_cons, List.all_nil, Bool.and_eq_true, and_true] at hall
      obtain ⟨ha, hb, hc⟩ := hall
      obtain ⟨rgb, hrgb⟩ := (hex_to_rgb_hex3 a b c ha hb hc).2
      have hp35 : parse_color (.str (35 :: [a, b, c])) = .ok rgb := by
        rw [hval]; simp [hrgb]
      exact ⟨rgb, hpq.trans hp35, hp35⟩
    · obtain ⟨a, b, c, d, e, f, rfl⟩ := length_eq_six h6
      simp only [List.all_cons, List.all_nil, Bool.and_eq_true, and_true] at hall
      obtain ⟨ha, hb, hc, hd, he, hf⟩ := hall
      obtain ⟨rgb, hrgb⟩ := hex_to_rgb_hex6 a b c d e f ha hb hc hd he hf
      have hp35 : parse_color (.str (35 :: [a, b, c, d, e, f])) = .ok rgb := by
        rw [hval]; simp [hrgb]
      exact ⟨rgb, hpq.trans hp35, hp35⟩
  · intro h3
    obtain ⟨a, b, c, rfl⟩ := List.length_eq_three.mp h3
    simp only [List.all_cons, List.all_nil, Bool.and_eq_true, and_true] at hall
    obtain ⟨ha, hb, hc⟩ := hall
    have hdup : (([a, b, c] : List Nat).flatMap fun c => [c, c]) = [a, a, b, b, c, c] := by
      simp
    rw [hdup]
    have hall6 : ([a, a, b, b, c, c] : List Nat).all isHexDig = true := by
      simp [ha, hb, hc]
    obtain ⟨hpq6, hval6⟩ := parse_color_hexstr [a, a, b, b, c, c] hall6 (by simp)
    rw [hpq, hval, hpq6, hval6, (hex_to_rgb_hex3 a b c ha hb hc).1]
    simp
  · intro hn3 hn6
    have herr : parse_color (.str (35 :: s)) = .error .valueError := by
      rw [hval, if_pos]
      constructor <;> simp [List.length_cons] <;> omega
    exact ⟨hpq.trans herr, herr⟩

/-- Witness for C3: the length-3 hex string "abc" is accepted with and without
a leading `#`, and the length-4 hex string "abcd" is rejected. -/
theorem C3_color_resolution_witness :
    (∃ rgb, parse_color (.str (pyStr "abc")) = .ok rgb ∧
            parse_color (.str (35 :: pyStr "abc")) = .ok rgb) ∧
    parse_color (.str (pyStr "abcd")) = .error .valueError :=
  ⟨(C3_color_resolution.2.2.2.2 (pyStr "abc") (by decide) (by decide)).1
      (Or.inl (by decide)),
   ((C3_color_resolution.2.2.2.2 (pyStr "abcd") (by decide) (by decide)).2.2
      (by decide) (by decide)).1⟩

/-- C4 fails as stated: a 3-element triple whose first channel is the
non-integer rational 1/2 (a Python float 0.5) is in range, so `_parse_color`
returns it unchanged instead of failing with a validation error. -/
theorem C4_counterexample :
    parse_color (.rgb [mkRat 1 2, 0, 0]) = .ok (mkRat 1 2, 0, 0) ∧
    (mkRat 1 2).den ≠ 1 := by
  decide

/-- C4 amended: a 3-element numeric triple is returned unchanged when every
channel lies in [0, 255] (integrality is not checked), and `_parse_color`
fails with a ValueError when some channel is out of range, or when the list
does not have exactly three elements. -/
theorem C4_triple_validation (a b c : ℚ) :
    ((0 ≤ a ∧ a ≤ 255 ∧ 0 ≤ b ∧ b ≤ 255 ∧ 0 ≤ c ∧ c ≤ 255) →
       parse_color (.rgb [a, b, c]) = .ok (a, b, c)) ∧
    (¬(0 ≤ a ∧ a ≤ 255 ∧ 0 ≤ b ∧ b ≤ 255 ∧ 0 ≤ c ∧ c ≤ 255) →
       parse_color (.rgb [a, b, c]) = .error .valueError) ∧
    ∀ cs : List ℚ, cs.length ≠ 3 → parse_color (.rgb cs) = .error .valueError := by
  refine ⟨fun h => ?_, fun h => ?_, fun cs hcs => ?_⟩
  · simp only [parse_color]
    rw [if_pos h]
  · simp only [parse_color]
    rw [if_neg h]
  · rcases cs with _ | ⟨x, _ | ⟨y, _ | ⟨z, _ | ⟨w, t⟩⟩⟩⟩ <;> simp_all [parse_color]

/-- Witness for C4's amended statement: an in-range triple is returned, an
out-of-range triple and a 2-element list are rejected. -/
theorem C4_triple_validation_witness :
    parse_color (.rgb [0, 128, 255]) = .ok (0, 128, 255) ∧
    parse_color (.rgb [300, 0, 0]) = .error .valueError ∧
    parse_color (.rgb [0, 0]) = .error .valueError :=
  ⟨(C4_triple_validation 0 128 255).1 (by norm_num),
   (C4_triple_validation 300 0 0).2.1 (by norm_num),
   (C4_triple_validation 0 0 0).2.2 [0, 0] (by simp)⟩

/-- PIL image modes relevant to the service. -/
inductive ImgMode
  | RGB
  | RGBA
  | P
deriving DecidableEq, Repr

/-- One pixel, always carried as four channels; for an RGB-mode image the
alpha channel is conventionally 255. -/
structure Pixel where
  r : Nat
  g : Nat
  b : Nat
  a : Nat
deriving DecidableEq, Repr

/-- The RGB part of a pixel. -/
def rgbOf (p : Pixel) : Nat × Nat × Nat := (p.r, p.g, p.b)

def whitePx : Pixel := ⟨255, 255, 255, 255⟩

/-- An in-memory raster: dimensions, mode and a total pixel function. -/
structure Image where
  width : Nat
  height : Nat
  mode : ImgMode
  px : Nat → Nat → Pixel

/-- Modelled from the spec: PIL `convert('RGBA')` — keeps the RGB values and
makes every pixel fully opaque. -/
def convert_rgba (img : Image) : Image :=
  { img with mode := .RGBA, px := fun x y => { img.px x y with a := 255 } }

/-- Modelled from the spec: PIL `convert('RGB')` — drops the alpha channel. -/
def convert_rgb (img : Image) : Image :=
  { img with mode := .RGB, px := fun x y => { img.px x y with a := 255 } }

/-- Alpha blend of one channel: `(top * a + base * (255 - a)) / 255`. -/
def blendChan (base top a : Nat) : Nat := (top * a + base * (255 - a)) / 255

def blendPix (base top : Pixel) (a : Nat) : Pixel :=
  ⟨blendChan base.r top.r a, blendChan base.g top.g a,
   blendChan base.b top.b a, blendChan base.a top.a a⟩

/-- Modelled from the spec: PIL `Image.paste(top, pos, mask)` — inside the
box anchored at `pos` with the top image's dimensions the top is layered on
by alpha compositing against the mask; every pixel outside that box is left
untouched; the base image's mode and dimensions are kept. -/
def paste (base top : Image) (pos : Int × Int) (mask : Option (Nat → Nat → Nat)) : Image :=
  { base with
    px := fun x y =>
      if pos.1 ≤ (x : Int) ∧ (x : Int) < pos.1 + top.width ∧
         pos.2 ≤ (y : Int) ∧ (y : Int) < pos.2 + top.height then
        let tx := ((x : Int) - pos.1).toNat
        let ty := ((y : Int) - pos.2).toNat
        match mask with
        | none => top.px tx ty
        | some m => blendPix (base.px x y) (top.px tx ty) (m tx ty)
      else base.px x y }

/-- Modelled from the spec: the size computed by PIL `Image.thumbnail` for a
bounding box of `bound × bound` — aspect-ratio preserving, downsampling only
(never upsampling), and at least one pixel per side. -/
def thumbnailSize (w h bound : Nat) : Nat × Nat :=
  if w ≤ bound ∧ h ≤ bound then (w, h)
  else if h ≤ w then (bound, max 1 (h * bound / w))
  else (max 1 (w * bound / h), bound)

/-- Modelled from the spec: PIL resize by nearest sampling, standing in for
the high-quality LANCZOS filter (only dimensions matter to the claims). -/
def resizeImage (img : Image) (d : Nat × Nat) : Image :=
  { width := d.1, height := d.2, mode := img.mode,
    px := fun x y => img.px (x * img.width / max 1 d.1) (y * img.height / max 1 d.2) }

/-- The clamp of the requested logo size ratio performed by `_embed_logo`
(source line 153): `max(0.1, min(0.4, logo_size))`. -/
def clamp_logo_size (r : ℚ) : ℚ := max (mkRat 1 10) (min (mkRat 2 5) r)

/-- `logo_max_size` of `_embed_logo` (source line 157):
`int(min(qr_width, qr_height) * logo_size)` with the clamped ratio — the
floor of the exact rational product `n * (p/q)`, computed as `(n * p)` floor-
divided by `q` so that the definition evaluates by kernel reduction
(`logo_max_size_eq_floor` below states the floor form). -/
def logo_max_size (qr : Image) (logo_size : ℚ) : Nat :=
  ((((min qr.width qr.height : Nat) : Int) * (clamp_logo_size logo_size).num).fdiv
    ((clamp_logo_size logo_size).den : Int)).toNat

/-- Dimensions of the logo after `logo.thumbnail((logo_max_size, logo_max_size))`. -/
def thumb_dims (qr logo : Image) (logo_size : ℚ) : Nat × Nat :=
  thumbnailSize logo.width logo.height (logo_max_size qr logo_size)

/-- Dimensions of `logo_with_border`: the resized logo padded by the fixed
10-pixel border on all sides (source lines 163-167). -/
def padded_dims (qr logo : Image) (logo_size : ℚ) : Nat × Nat :=
  ((thumb_dims qr logo logo_size).1 + 20, (thumb_dims qr logo logo_size).2 + 20)

/-- The centering position of `_embed_logo` (source lines 173-176):
`((qr_width - logo_with_border.width) // 2, (qr_height - logo_with_border.height) // 2)`
with Python floor division. -/
def embed_pos (qr logo : Image) (logo_size : ℚ) : Int × Int :=
  (((qr.width : Int) - ((padded_dims qr logo logo_size).1 : Int)).fdiv 2,
   ((qr.height : Int) - ((padded_dims qr logo logo_size).2 : Int)).fdiv 2)

/-- `logo_with_border` of `_embed_logo` (source lines 162-170): a white RGBA
canvas 20 pixels wider and taller than the resized logo, with the logo pasted
at (10, 10) using itself as the mask. -/
def padded_logo (qr logo : Image) (logo_size : ℚ) : Image :=
  let d := thumb_dims qr logo logo_size
  let logoT := resizeImage logo d
  let canvas : Image := { width := d.1 + 20, height := d.2 + 20, mode := .RGBA,
                          px := fun _ _ => whitePx }
  paste canvas logoT (10, 10) (some fun u v => (logoT.px u v).a)

/-- The `_embed_logo` method (source lines 139-189): clamp the ratio, resize
the logo to fit `logo_max_size`, frame it with the 10-pixel white border,
convert the QR image to RGBA when needed, and paste the framed logo centered,
masked by its own alpha. -/
def embed_logo (qr logo : Image) (logo_size : ℚ) : Image :=
  let lwb := padded_logo qr logo logo_size
  let qr' := if qr.mode = .RGBA then qr else convert_rgba qr
  paste qr' lwb (embed_pos qr logo logo_size) (some fun u v => (lwb.px u v).a)

lemma thumbnailSize_le {w h bound : Nat} (hb : 1 ≤ bound) :
    (thumbnailSize w h bound).1 ≤ bound ∧ (thumbnailSize w h bound).2 ≤ bound := by
  unfold thumbnailSize
  split
  · next hwh => exact ⟨hwh.1, hwh.2⟩
  · next hwh =>
    split
    · next hhw =>
      have hw : 0 < w := by omega
      refine ⟨le_rfl, max_le hb ?_⟩
      calc h * bound / w ≤ w * bound / w :=
            Nat.div_le_div_right (Nat.mul_le_mul_right bound hhw)
        _ = bound := Nat.mul_div_cancel_left bound hw
    · next hhw =>
      have hh : 0 < h := by omega
      refine ⟨max_le hb ?_, le_rfl⟩
      calc w * bound / h ≤ h * bound / h :=
            Nat.div_le_div_right (Nat.mul_le_mul_right bound (by omega))
        _ = bound := Nat.mul_div_cancel_left bound hh

lemma rat_floor_eq_intFloor (q : ℚ) : q.floor = ⌊q⌋ := by
  rw [Rat.floor_def', ← Rat.floor_def]

/-- The integer computation of `logo_max_size` is the floor of the exact
rational product. -/
lemma logo_max_size_eq_floor (qr : Image) (r : ℚ) :
    logo_max_size qr r =
      (⌊((min qr.width qr.height : Nat) : ℚ) * clamp_logo_size r⌋).toNat := by
  unfold logo_max_size
  congr 1
  have hd : (0 : ℤ) ≤ ((clamp_logo_size r).den : ℤ) := by positivity
  rw [Int.fdiv_eq_ediv _ hd]
  have hrw : ((min qr.width qr.height : Nat) : ℚ) * clamp_logo_size r =
      ((((min qr.width qr.height : Nat) : Int) * (clamp_logo_size r).num : ℤ) : ℚ) /
        (((clamp_logo_size r).den : ℕ) : ℚ) := by
    push_cast
    rw [mul_div_assoc, Rat.num_div_den]
  rw [hrw, Rat.floor_intCast_div_natCast]

lemma mkRat_110_le_mkRat_25 : mkRat 1 10 ≤ mkRat 2 5 := by
  rw [Rat.mkRat_eq_div, Rat.mkRat_eq_div]
  norm_num

/-- A lower bound on `logo_max_size` when the symbol is at least 10 pixels on
its shorter side. -/
lemma logo_max_size_pos (qr : Image) (r : ℚ) (hmin : 10 ≤ min qr.width qr.height) :
    1 ≤ logo_max_size qr r := by
  have h10 : (10 : ℚ) ≤ ((min qr.width qr.height : Nat) : ℚ) := by exact_mod_cast hmin
  have hq1 : (1 : ℚ) ≤ ((min qr.width qr.height : Nat) : ℚ) * clamp_logo_size r := by
    calc (1 : ℚ) = 10 * mkRat 1 10 := by rw [Rat.mkRat_eq_div]; norm_num
      _ ≤ ((min qr.width qr.height : Nat) : ℚ) * clamp_logo_size r :=
          mul_le_mul h10 (le_max_left _ _)
            (by rw [Rat.mkRat_eq_div]; norm_num)
            (le_trans (by norm_num) h10)
  have hfl : (1 : ℤ) ≤ ⌊((min qr.width qr.height : Nat) : ℚ) * clamp_logo_size r⌋ :=
    Int.le_floor.mpr (by exact_mod_cast hq1)
  rw [logo_max_size_eq_floor]
  omega

/-- C2: the requested logo size ratio is clamped to [1/10, 2/5] (so 9/10 is
clamped to 2/5), and on any symbol at least 10 pixels on its shorter side the
resized logo's bounding box is at most 2/5 = 40% of the shorter dimension. -/
theorem C2_logo_size_clamped (qr logo : Image) (r : ℚ)
    (hmin : 10 ≤ min qr.width qr.height) :
    (mkRat 1 10 ≤ clamp_logo_size r ∧ clamp_logo_size r ≤ mkRat 2 5) ∧
    clamp_logo_size (mkRat 9 10) = mkRat 2 5 ∧
    ((thumb_dims qr logo r).1 : ℚ) ≤ mkRat 2 5 * ((min qr.width qr.height : Nat) : ℚ) ∧
    ((thumb_dims qr logo r).2 : ℚ) ≤ mkRat 2 5 * ((min qr.width qr.height : Nat) : ℚ) := by
  have hhi : clamp_logo_size r ≤ mkRat 2 5 :=
    max_le mkRat_110_le_mkRat_25 (min_le_left _ _)
  have hb := logo_max_size_pos qr r hmin
  have hthumb := thumbnailSize_le (w := logo.width) (h := logo.height) hb
  have hq0 : (0 : ℚ) ≤ ((min qr.width qr.height : Nat) : ℚ) := by positivity
  have hr0 : (0 : ℚ) ≤ clamp_logo_size r :=
    le_trans (by rw [Rat.mkRat_eq_div]; norm_num) (le_max_left _ _)
  have hfl0 : (0 : ℤ) ≤ ⌊((min qr.width qr.height : Nat) : ℚ) * clamp_logo_size r⌋ :=
    Int.le_floor.mpr (by exact_mod_cast mul_nonneg hq0 hr0)
  have hlmq : ((logo_max_size qr r : Nat) : ℚ) ≤
      mkRat 2 5 * ((min qr.width qr.height : Nat) : ℚ) := by
    rw [logo_max_size_eq_floor]
    rw [show (((⌊((min qr.width qr.height : Nat) : ℚ) * clamp_logo_size r⌋.toNat : Nat) : ℚ))
          = ((⌊((min qr.width qr.height : Nat) : ℚ) * clamp_logo_size r⌋ : ℤ) : ℚ) by
        exact_mod_cast congrArg (fun z : ℤ => (z : ℚ)) (Int.toNat_of_nonneg hfl0)]
    calc ((⌊((min qr.width qr.height : Nat) : ℚ) * clamp_logo_size r⌋ : ℤ) : ℚ)
        ≤ ((min qr.width qr.height : Nat) : ℚ) * clamp_logo_size r := Int.floor_le _
      _ ≤ ((min qr.width qr.height : Nat) : ℚ) * mkRat 2 5 :=
          mul_le_mul_of_nonneg_left hhi hq0
      _ = mkRat 2 5 * ((min qr.width qr.height : Nat) : ℚ) := mul_comm _ _
  refine ⟨⟨le_max_left _ _, hhi⟩, by decide, ?_, ?_⟩
  · exact le_trans (by exact_mod_cast hthumb.1) hlmq
  · exact le_trans (by exact_mod_cast hthumb.2) hlmq

/-- A constant test image, used by the concrete witnesses. -/
def testImg (w h : Nat) (m : ImgMode) : Image :=
  ⟨w, h, m, fun _ _ => ⟨0, 0, 0, 255⟩⟩

/-- Witness for C2 at a 100 by 100 symbol, a 30 by 30 logo and the
out-of-range request 9/10. -/
theorem C2_logo_size_clamped_witness :
    (mkRat 1 10 ≤ clamp_logo_size (mkRat 9 10) ∧
     clamp_logo_size (mkRat 9 10) ≤ mkRat 2 5) ∧
    clamp_logo_size (mkRat 9 10) = mkRat 2 5 ∧
    ((thumb_dims (testImg 100 100 .RGB) (testImg 30 30 .RGBA) (mkRat 9 10)).1 : ℚ) ≤
      mkRat 2 5 * ((min (testImg 100 100 .RGB).width (testImg 100 100 .RGB).height : Nat) : ℚ) ∧
    ((thumb_dims (testImg 100 100 .RGB) (testImg 30 30 .RGBA) (mkRat 9 10)).2 : ℚ) ≤
      mkRat 2 5 * ((min (testImg 100 100 .RGB).width (testImg 100 100 .RGB).height : Nat) : ℚ) :=
  C2_logo_size_clamped (testImg 100 100 .RGB) (testImg 30 30 .RGBA) (mkRat 9 10) (by decide)

/-- C7: `_embed_logo` centers the padded logo at
`((qr_width - padded_width) // 2, (qr_height - padded_height) // 2)` with
Python floor division, and every pixel outside the padded logo's footprint
keeps its original value: the RGB value is always preserved, and for an
already-RGBA symbol the pixel is preserved exactly. -/
theorem C7_embed_logo_centering (qr logo : Image) (r : ℚ) (x y : Nat)
    (hout : ¬((embed_pos qr logo r).1 ≤ (x : Int) ∧
              (x : Int) < (embed_pos qr logo r).1 + ((padded_dims qr logo r).1 : Int) ∧
              (embed_pos qr logo r).2 ≤ (y : Int) ∧
              (y : Int) < (embed_pos qr logo r).2 + ((padded_dims qr logo r).2 : Int))) :
    embed_pos qr logo r =
      (((qr.width : Int) - (((thumb_dims qr logo r).1 + 20 : Nat) : Int)).fdiv 2,
       ((qr.height : Int) - (((thumb_dims qr logo r).2 + 20 : Nat) : Int)).fdiv 2) ∧
    rgbOf ((embed_logo qr logo r).px x y) = rgbOf (qr.px x y) ∧
    (qr.mode = .RGBA → (embed_logo qr logo r).px x y = qr.px x y) := by
  have hw : (padded_logo qr logo r).width = (padded_dims qr logo r).1 := rfl
  have hh : (padded_logo qr logo r).height = (padded_dims qr logo r).2 := rfl
  have hpx : (embed_logo qr logo r).px x y =
      (if qr.mode = .RGBA then qr else convert_rgba qr).px x y := by
    simp only [embed_logo, paste, hw, hh]
    rw [if_neg hout]
  refine ⟨rfl, ?_, ?_⟩
  · rw [hpx]
    by_cases hm : qr.mode = .RGBA
    · rw [if_pos hm]
    · rw [if_neg hm]
      rfl
  · intro hm
    rw [hpx, if_pos hm]

/-- Witness for C7: a 100 by 100 RGBA symbol, a 30 by 30 logo, ratio 3/10;
the pixel (0, 0) lies outside the centered 50 by 50 footprint. -/
theorem C7_embed_logo_centering_witness :
    embed_pos (testImg 100 100 .RGBA) (testImg 30 30 .RGBA) (mkRat 3 10) =
      (((((testImg 100 100 .RGBA).width : Int)) -
          (((thumb_dims (testImg 100 100 .RGBA) (testImg 30 30 .RGBA) (mkRat 3 10)).1 + 20 : Nat) : Int)).fdiv 2,
       ((((testImg 100 100 .RGBA).height : Int)) -
          (((thumb_dims (testImg 100 100 .RGBA) (testImg 30 30 .RGBA) (mkRat 3 10)).2 + 20 : Nat) : Int)).fdiv 2) ∧
    rgbOf ((embed_logo (testImg 100 100 .RGBA) (testImg 30 30 .RGBA) (mkRat 3 10)).px 0 0) =
      rgbOf ((testImg 100 100 .RGBA).px 0 0) ∧
    ((testImg 100 100 .RGBA).mode = .RGBA →
      (embed_logo (testImg 100 100 .RGBA) (testImg 30 30 .RGBA) (mkRat 3 10)).px 0 0 =
        (testImg 100 100 .RGBA).px 0 0) :=
  C7_embed_logo_centering (testImg 100 100 .RGBA) (testImg 30 30 .RGBA) (mkRat 3 10) 0 0
    (by decide)

/-- Modelled from the spec: the base64 alphabet code of one 6-bit value. -/
def encB64 (n : Nat) : Nat :=
  if n < 26 then 65 + n
  else if n < 52 then 71 + n
  else if n < 62 then n - 4
  else if n = 62 then 43
  else 47

/-- Decoding of one base64 alphabet code point. -/
def decB64 (n : Nat) : Option Nat :=
  if 65 ≤ n ∧ n ≤ 90 then some (n - 65)
  else if 97 ≤ n ∧ n ≤ 122 then some (n - 71)
  else if 48 ≤ n ∧ n ≤ 57 then some (n + 4)
  else if n = 43 then some 62
  else if n = 47 then some 63
  else none

/-- Modelled from the spec: Python `base64.b64encode`, producing the ASCII
codes of the padded standard-alphabet encoding. -/
def b64encode : List Nat → List Nat
  | [] => []
  | [a] => [encB64 (a / 4), encB64 (a % 4 * 16), 61, 61]
  | [a, b] => [encB64 (a / 4), encB64 (a % 4 * 16 + b / 16), encB64 (b % 16 * 4), 61]
  | a :: b :: c :: rest =>
      encB64 (a / 4) :: encB64 (a % 4 * 16 + b / 16) ::
        encB64 (b % 16 * 4 + c / 64) :: encB64 (c % 64) :: b64encode rest

/-- Whether a code point survives Python's pre-decoding discard step:
alphabet characters and the padding `=`. -/
def isB64Sym (n : Nat) : Bool := (decB64 n).isSome || n == 61

/-- Quad-at-a-time base64 decoding, padding allowed only in the final quad. -/
def b64decodeQuads : List Nat → Option (List Nat)
  | [] => some []
  | a :: b :: c :: d :: rest =>
    match decB64 a, decB64 b with
    | some va, some vb =>
      if c = 61 then
        if d = 61 ∧ rest = [] then some [va * 4 + vb / 16] else none
      else
        match decB64 c with
        | some vc =>
          if d = 61 then
            if rest = [] then some [va * 4 + vb / 16, vb % 16 * 16 + vc / 4] else none
          else
            match decB64 d with
            | some vd =>
              (b64decodeQuads rest).map
                (fun t => (va * 4 + vb / 16) :: (vb % 16 * 16 + vc / 4) ::
                          (vc % 4 * 64 + vd) :: t)
            | none => none
        | none => none
    | _, _ => none
  | _ => none

/-- Modelled from the spec: Python `base64.b64decode` on text — non-ASCII
input fails, characters outside the alphabet are discarded, and what remains
must be whole quads with padding only at the end. -/
def b64decode (s : List Nat) : Option (List Nat) :=
  if s.all (fun c => c < 128) then b64decodeQuads (s.filter isB64Sym) else none

/-- Three little-endian base-256 digit bytes of a dimension. -/
def natBytes (n : Nat) : List Nat := [n % 256, n / 256 % 256, n / 65536 % 256]

/-- Bytes of one pixel in a given mode, each channel reduced to a byte. -/
def pxBytes (m : ImgMode) (p : Pixel) : List Nat :=
  match m with
  | .RGBA => [p.r % 256, p.g % 256, p.b % 256, p.a % 256]
  | _ => [p.r % 256, p.g % 256, p.b % 256]

/-- Modelled from the spec: PIL `Image.save` into an in-memory buffer — a
deterministic, always non-empty byte encoding: a format tag byte, the two
dimensions, then the packed pixel bytes in row-major order. -/
def pilSave (format : List Nat) (img : Image) : List Nat :=
  (format.foldl (· + ·) 0 % 256) ::
    (natBytes img.width ++ natBytes img.height ++
      (List.range img.height).flatMap (fun y =>
        (List.range img.width).flatMap (fun x => pxBytes img.mode (img.px x y))))

/-- The white-background flattening applied before JPEG serialization of an
RGBA image (source lines 278-280): a white RGB canvas with the image pasted
over it, masked by its own alpha band. -/
def flatten_white (img : Image) : Image :=
  paste { width := img.width, height := img.height, mode := .RGB, px := fun _ _ => whitePx }
    img (0, 0) (some fun u v => (img.px u v).a)

/-- The serialization step of `generate_qr_code` (source lines 274-283): for
JPEG/JPG output of an RGBA image, flatten onto white first, else save as-is. -/
def save_bytes (format : List Nat) (img : Image) : List Nat :=
  if (pyUpper format = pyStr "JPEG" ∨ pyUpper format = pyStr "JPG") ∧ img.mode = .RGBA then
    pilSave format (flatten_white img)
  else pilSave format img

/-- Modelled from the spec: PIL `Image.open` on decoded bytes — a minimal
deterministic decoder: a tag byte (0 = RGB, 1 = RGBA), a width byte and a
height byte, then the packed channel bytes; anything else fails to decode. -/
def pilOpen (bytes : List Nat) : Option Image :=
  match bytes with
  | t :: w :: h :: px =>
    if t = 0 ∧ 0 < w ∧ 0 < h ∧ px.length = w * h * 3 then
      some { width := w, height := h, mode := .RGB,
             px := fun x y =>
               ⟨px.getD (3 * (y * w + x)) 0, px.getD (3 * (y * w + x) + 1) 0,
                px.getD (3 * (y * w + x) + 2) 0, 255⟩ }
    else if t = 1 ∧ 0 < w ∧ 0 < h ∧ px.length = w * h * 4 then
      some { width := w, height := h, mode := .RGBA,
             px := fun x y =>
               ⟨px.getD (4 * (y * w + x)) 0, px.getD (4 * (y * w + x) + 1) 0,
                px.getD (4 * (y * w + x) + 2) 0, px.getD (4 * (y * w + x) + 3) 0⟩ }
    else none
  | _ => none

/-- The `_decode_logo` method (source lines 111-137): strip a data-URL head
up to the first comma when present, base64-decode, open as an image, and
normalize to RGBA; any failure yields None. -/
def decode_logo (logo_data : List Nat) : Option Image :=
  let d := if logo_data.contains 44 then
             (logo_data.dropWhile (fun c => !(c == 44))).drop 1
           else logo_data
  match b64decode d with
  | none => none
  | some bytes =>
    match pilOpen bytes with
    | none => none
    | some img => some (if img.mode = .RGBA then img else convert_rgba img)

/-- The keys of the `PATTERN_STYLES` class attribute (source lines 26-32). -/
def PATTERN_STYLES_KEYS : List (List Nat) :=
  [pyStr "square", pyStr "rounded", pyStr "dots",
   pyStr "vertical_bars", pyStr "horizontal_bars"]

/-- The keys of the `ERROR_CORRECTION_LEVELS` class attribute (lines 35-40). -/
def ERROR_CORRECTION_KEYS : List (List Nat) :=
  [pyStr "L", pyStr "M", pyStr "Q", pyStr "H"]

/-- Pattern validation in `generate_qr_code` (source lines 224-227). -/
def validate_pattern (pattern : List Nat) : List Nat :=
  if pattern ∈ PATTERN_STYLES_KEYS then pattern else pyStr "square"

/-- Error-correction validation in `generate_qr_code` (source lines 229-232). -/
def validate_ec (ec : List Nat) : List Nat :=
  if ec ∈ ERROR_CORRECTION_KEYS then ec else pyStr "L"

/-- Python truthiness of the optional logo string argument. -/
def pyTruthy : Option (List Nat) → Bool
  | none => false
  | some s => !s.isEmpty

/-- The error-correction token actually used to build the symbol: validation
(lines 229-232) followed by escalation to H when a logo is present and the
level is L (source lines 234-237). -/
def ec_used (logo : Option (List Nat)) (ec : List Nat) : List Nat :=
  let e := validate_ec ec
  if pyTruthy logo = true ∧ e = pyStr "L" then pyStr "H" else e

/-- Weight of an error-correction token, used by the renderer model. -/
def ec_weight (ec : List Nat) : Nat :=
  if ec = pyStr "M" then 1 else if ec = pyStr "Q" then 2
  else if ec = pyStr "H" then 3 else 0

/-- Modelled from the spec: deterministic stand-in for the Symbol Builder's
best-fit version selection (a trusted subroutine; larger payloads and higher
error-correction levels give larger symbols, capped at version 40). -/
def fit_version (payload ec : List Nat) : Nat :=
  min 40 (1 + payload.length * (1 + ec_weight ec) / 40)

/-- Modelled from the spec: whether a module of the symbol matrix is dark —
a deterministic pseudo-pattern depending on payload and error correction. -/
def module_dark (payload ec : List Nat) (i j : Nat) : Bool :=
  (payload.foldl (· + ·) 0 + ec_weight ec + 3 * i + 5 * j + i * j) % 3 == 0

/-- Modelled from the spec: the geometry drawn by one module drawer inside a
`box × box` cell — square fills the cell, rounded cuts the corner pixels,
dots draws the inscribed disc, bars leave side margins. -/
def draw_module (pattern : List Nat) (u v box : Nat) : Bool :=
  if pattern = pyStr "dots" then
    decide ((if 2 * u + 1 ≤ box then box - (2 * u + 1) else 2 * u + 1 - box) ^ 2 +
            (if 2 * v + 1 ≤ box then box - (2 * v + 1) else 2 * v + 1 - box) ^ 2 ≤ box ^ 2)
  else if pattern = pyStr "rounded" then
    !((u == 0 || u == box - 1) && (v == 0 || v == box - 1))
  else if pattern = pyStr "vertical_bars" then
    decide (box / 8 ≤ u ∧ u < box - box / 8)
  else if pattern = pyStr "horizontal_bars" then
    decide (box / 8 ≤ v ∧ v < box - box / 8)
  else true

/-- A rational color channel reduced to a pixel byte. -/
def ratByte (q : ℚ) : Nat := q.floor.toNat % 256

def rgbPix (c : RGBv) : Pixel := ⟨ratByte c.1, ratByte c.2.1, ratByte c.2.2, 255⟩

/-- Modelled from the spec: `qrcode.QRCode.make(fit=True)` followed by
`make_image(StyledPilImage, module_drawer, SolidFillColorMask)` — an RGB
raster of side `modules × box_size` including the quiet-zone border, dark
modules drawn with the selected pattern in the fill color over the
background color. -/
def make_styled_image (payload ec pattern : List Nat) (fill back : RGBv)
    (box_size border : Nat) : Image :=
  let modules := 17 + 4 * fit_version payload ec + 2 * border
  { width := modules * box_size, height := modules * box_size, mode := .RGB,
    px := fun x y =>
      let i := x / box_size
      let j := y / box_size
      if border ≤ i ∧ i < modules - border ∧ border ≤ j ∧ j < modules - border ∧
         module_dark payload ec (i - border) (j - border) = true ∧
         draw_module pattern (x % box_size) (y % box_size) box_size = true
      then rgbPix fill else rgbPix back }

/-- Constructor state of `QRCodeService` (source lines 42-51). -/
structure QRCodeService where
  box_size : Nat := 10
  border : Nat := 4

/-- The symbol as rendered before any logo embedding (source lines 239-265):
pattern and error-correction validation, logo-driven escalation, styled
rendering, and normalization of exotic modes to RGB. -/
def rendered_symbol (svc : QRCodeService) (url pattern ec : List Nat)
    (logo : Option (List Nat)) (fill back : RGBv) : Image :=
  let img := make_styled_image url (ec_used logo ec) (validate_pattern pattern)
    fill back svc.box_size svc.border
  if img.mode = .RGB ∨ img.mode = .RGBA then img else convert_rgb img

/-- The image produced by `generate_qr_code` after the optional logo
embedding step (source lines 267-271). -/
def final_image (svc : QRCodeService) (url pattern ec : List Nat)
    (logo : Option (List Nat)) (logo_size : ℚ) (fill back : RGBv) : Image :=
  match logo with
  | some l =>
    if l.isEmpty then rendered_symbol svc url pattern ec (some l) fill back
    else
      match decode_logo l with
      | some li =>
          embed_logo (rendered_symbol svc url pattern ec (some l) fill back) li logo_size
      | none => rendered_symbol svc url pattern ec (some l) fill back
  | none => rendered_symbol svc url pattern ec none fill back

/-- `generate_qr_code` before the enclosing try/except: ValueError for an
empty URL (source lines 217-218), color validation (lines 221-222), then the
pure rendering and serialization pipeline. -/
def generateE (svc : QRCodeService) (url format : List Nat)
    (fill_color back_color : ColorInput) (pattern ec : List Nat)
    (logo : Option (List Nat)) (logo_size : ℚ) : Except PyErr (List Nat) :=
  if url.isEmpty then .error .valueError
  else
    match parse_color fill_color with
    | .error e => .error e
    | .ok fill =>
      match parse_color back_color with
      | .error e => .error e
      | .ok back =>
        .ok (save_bytes format (final_image svc url pattern ec logo logo_size fill back))

/-- The `generate_qr_code` method (source lines 191-294): every exception is
caught by the top-level try/except and turned into None. -/
def generate_qr_code (svc : QRCodeService) (url format : List Nat)
    (fill_color back_color : ColorInput) (pattern ec : List Nat)
    (logo : Option (List Nat)) (logo_size : ℚ) : Option (List Nat) :=
  (generateE svc url format fill_color back_color pattern ec logo logo_size).toOption

/-- The `generate_qr_code_base64` method (source lines 296-327): delegate to
`generate_qr_code` and base64-encode a truthy result. -/
def generate_qr_code_base64 (svc : QRCodeService) (url format : List Nat)
    (fill_color back_color : ColorInput) (pattern ec : List Nat)
    (logo : Option (List Nat)) (logo_size : ℚ) : Option (List Nat) :=
  match generate_qr_code svc url format fill_color back_color pattern ec logo logo_size with
  | some bs => if bs.isEmpty then none else some (b64encode bs)
  | none => none

lemma decB64_encB64 : ∀ v, v < 64 → decB64 (encB64 v) = some v := by decide

lemma encB64_ne_61 : ∀ v, v < 64 → encB64 v ≠ 61 := by decide

lemma encB64_lt_128 : ∀ v, v < 64 → encB64 v < 128 := by decide

lemma isB64Sym_encB64 : ∀ v, v < 64 → isB64Sym (encB64 v) = true := by decide

lemma b64encode_mem (l : List Nat) (hl : ∀ x ∈ l, x < 256) :
    ∀ c ∈ b64encode l, isB64Sym c = true ∧ c < 128 := by
  match l with
  | [] => intro c hc; simp [b64encode] at hc
  | [a] =>
    intro c hc
    have ha : a < 256 := hl a (by simp)
    have h1 : a / 4 < 64 := by omega
    have h2 : a % 4 * 16 < 64 := by omega
    simp only [b64encode, List.mem_cons, List.not_mem_nil, or_false] at hc
    rcases hc with rfl | rfl | rfl | rfl
    · exact ⟨isB64Sym_encB64 _ h1, encB64_lt_128 _ h1⟩
    · exact ⟨isB64Sym_encB64 _ h2, encB64_lt_128 _ h2⟩
    · exact ⟨by decide, by decide⟩
    · exact ⟨by decide, by decide⟩
  | [a, b] =>
    intro c hc
    have ha : a < 256 := hl a (by simp)
    have hb : b < 256 := hl b (by simp)
    have h1 : a / 4 < 64 := by omega
    have h2 : a % 4 * 16 + b / 16 < 64 := by omega
    have h3 : b % 16 * 4 < 64 := by omega
    simp only [b64encode, List.mem_cons, List.not_mem_nil, or_false] at hc
    rcases hc with rfl | rfl | rfl | rfl
    · exact ⟨isB64Sym_encB64 _ h1, encB64_lt_128 _ h1⟩
    · exact ⟨isB64Sym_encB64 _ h2, encB64_lt_128 _ h2⟩
    · exact ⟨isB64Sym_encB64 _ h3, encB64_lt_128 _ h3⟩
    · exact ⟨by decide, by decide⟩
  | a :: b :: c0 :: r0 :: rest =>
    intro c hc
    have ha : a < 256 := hl a (by simp)
    have hb : b < 256 := hl b (by simp)
    have hc0 : c0 < 256 := hl c0 (by simp)
    have ih := b64encode_mem (r0 :: rest) (fun x hx => hl x (by simp at hx ⊢; tauto))
    have h1 : a / 4 < 64 := by omega
    have h2 : a % 4 * 16 + b / 16 < 64 := by omega
    have h3 : b % 16 * 4 + c0 / 64 < 64 := by omega
    have h4 : c0 % 64 < 64 := by omega
    simp only [b64encode, List.mem_cons] at hc
    rcases hc with rfl | rfl | rfl | rfl | hmem
    · exact ⟨isB64Sym_encB64 _ h1, encB64_lt_128 _ h1⟩
    · exact ⟨isB64Sym_encB64 _ h2, encB64_lt_128 _ h2⟩
    · exact ⟨isB64Sym_encB64 _ h3, encB64_lt_128 _ h3⟩
    · exact ⟨isB64Sym_encB64 _ h4, encB64_lt_128 _ h4⟩
    · exact ih c hmem
  | [a, b, c0] =>
    intro c hc
    have ha : a < 256 := hl a (by simp)
    have hb : b < 256 := hl b (by simp)
    have hc0 : c0 < 256 := hl c0 (by simp)
    have h1 : a / 4 < 64 := by omega
    have h2 : a % 4 * 16 + b / 16 < 64 := by omega
    have h3 : b % 16 * 4 + c0 / 64 < 64 := by omega
    have h4 : c0 % 64 < 64 := by omega
    simp only [b64encode, List.mem_cons, List.not_mem_nil, or_false] at hc
    rcases hc with rfl | rfl | rfl | rfl
    · exact ⟨isB64Sym_encB64 _ h1, encB64_lt_128 _ h1⟩
    · exact ⟨isB64Sym_encB64 _ h2, encB64_lt_128 _ h2⟩
    · exact ⟨isB64Sym_encB64 _ h3, encB64_lt_128 _ h3⟩
    · exact ⟨isB64Sym_encB64 _ h4, encB64_lt_128 _ h4⟩

lemma b64decodeQuads_encode (l : List Nat) (hl : ∀ x ∈ l, x < 256) :
    b64decodeQuads (b64encode l) = some l := by
  match l with
  | [] => rfl
  | [a] =>
    have ha : a < 256 := hl a (by simp)
    have e1 := decB64_encB64 (a / 4) (by omega)
    have e2 := decB64_encB64 (a % 4 * 16) (by omega)
    simp [b64encode, b64decodeQuads, e1, e2]
    all_goals omega
  | [a, b] =>
    have ha : a < 256 := hl a (by simp)
    have hb : b < 256 := hl b (by simp)
    have e1 := decB64_encB64 (a / 4) (by omega)
    have e2 := decB64_encB64 (a % 4 * 16 + b / 16) (by omega)
    have e3 := decB64_encB64 (b % 16 * 4) (by omega)
    have hne := encB64_ne_61 (b % 16 * 4) (by omega)
    simp [b64encode, b64decodeQuads, e1, e2, e3, hne]
    all_goals omega
  | a :: b :: c0 :: rest =>
    have ha : a < 256 := hl a (by simp)
    have hb : b < 256 := hl b (by simp)
    have hc0 : c0 < 256 := hl c0 (by simp)
    have ih := b64decodeQuads_encode rest (fun x hx => hl x (by simp at hx ⊢; tauto))
    have e1 := decB64_encB64 (a / 4) (by omega)
    have e2 := decB64_encB64 (a % 4 * 16 + b / 16) (by omega)
    have e3 := decB64_encB64 (b % 16 * 4 + c0 / 64) (by omega)
    have e4 := decB64_encB64 (c0 % 64) (by omega)
    have hne3 := encB64_ne_61 (b % 16 * 4 + c0 / 64) (by omega)
    have hne4 := encB64_ne_61 (c0 % 64) (by omega)
    simp [b64encode, b64decodeQuads, e1, e2, e3, e4, hne3, hne4, ih]
    all_goals omega

lemma b64_roundtrip (l : List Nat) (hl : ∀ x ∈ l, x < 256) :
    b64decode (b64encode l) = some l := by
  have hmem := b64encode_mem l hl
  unfold b64decode
  rw [if_pos, List.filter_eq_self.mpr (fun c hc => (hmem c hc).1)]
  · exact b64decodeQuads_encode l hl
  · rw [List.all_eq_true]
    intro c hc
    simpa using (hmem c hc).2

lemma pxBytes_lt_256 (m : ImgMode) (p : Pixel) : ∀ x ∈ pxBytes m p, x < 256 := by
  intro x hx
  cases m with
  | RGBA =>
    simp [pxBytes] at hx
    rcases hx with rfl | rfl | rfl | rfl <;> omega
  | RGB =>
    simp [pxBytes] at hx
    rcases hx with rfl | rfl | rfl <;> omega
  | P =>
    simp [pxBytes] at hx
    rcases hx with rfl | rfl | rfl <;> omega

lemma pilSave_lt_256 (format : List Nat) (img : Image) :
    ∀ x ∈ pilSave format img, x < 256 := by
  intro x hx
  simp only [pilSave, List.mem_cons, List.mem_append, List.mem_flatMap, List.mem_range] at hx
  rcases hx with rfl | hx
  · omega
  rcases hx with (hx | hx) | ⟨y, _, x', _, hmem⟩
  · simp [natBytes] at hx
    rcases hx with rfl | rfl | rfl <;> omega
  · simp [natBytes] at hx
    rcases hx with rfl | rfl | rfl <;> omega
  · exact pxBytes_lt_256 _ _ x hmem

lemma pilSave_ne_nil (format : List Nat) (img : Image) : pilSave format img ≠ [] := by
  simp [pilSave]

lemma save_bytes_lt_256 (format : List Nat) (img : Image) :
    (∀ x ∈ save_bytes format img, x < 256) ∧ save_bytes format img ≠ [] := by
  unfold save_bytes
  split
  · exact ⟨pilSave_lt_256 _ _, pilSave_ne_nil _ _⟩
  · exact ⟨pilSave_lt_256 _ _, pilSave_ne_nil _ _⟩

/-- Shape of a successful run of `generate_qr_code`: both colors parsed, the
URL was non-empty, and the bytes are the serialized final image. -/
lemma generate_eq_some {svc : QRCodeService} {url format : List Nat}
    {fillc backc : ColorInput} {pattern ec : List Nat} {logo : Option (List Nat)}
    {ls : ℚ} {bs : List Nat}
    (h : generate_qr_code svc url format fillc backc pattern ec logo ls = some bs) :
    ∃ fill back, parse_color fillc = .ok fill ∧ parse_color backc = .ok back ∧
      url.isEmpty = false ∧
      bs = save_bytes format (final_image svc url pattern ec logo ls fill back) := by
  unfold generate_qr_code generateE at h
  split at h
  · simp [Except.toOption] at h
  · next hurl =>
    cases hf : parse_color fillc with
    | error e => rw [hf] at h; simp [Except.toOption] at h
    | ok fill =>
      rw [hf] at h
      cases hb : parse_color backc with
      | error e => rw [hb] at h; simp [Except.toOption] at h
      | ok back =>
        rw [hb] at h
        simp only [Except.toOption, Option.some.injEq] at h
        exact ⟨fill, back, rfl, rfl, by simpa using hurl, h.symm⟩

/-- C9: the base64 variant returns exactly the base64 encoding of the bytes
of `generate_qr_code`, is None exactly when `generate_qr_code` is None, and
decoding its output recovers the raw bytes exactly. -/
theorem C9_base64_wrapper (svc : QRCodeService) (url format : List Nat)
    (fillc backc : ColorInput) (pattern ec : List Nat) (logo : Option (List Nat)) (ls : ℚ) :
    generate_qr_code_base64 svc url format fillc backc pattern ec logo ls =
      Option.map b64encode (generate_qr_code svc url format fillc backc pattern ec logo ls) ∧
    (generate_qr_code_base64 svc url format fillc backc pattern ec logo ls = none ↔
      generate_qr_code svc url format fillc backc pattern ec logo ls = none) ∧
    (∀ bs, generate_qr_code svc url format fillc backc pattern ec logo ls = some bs →
      b64decode (b64encode bs) = some bs) := by
  have hbytes : ∀ bs, generate_qr_code svc url format fillc backc pattern ec logo ls = some bs →
      (∀ x ∈ bs, x < 256) ∧ bs ≠ [] := by
    intro bs h
    obtain ⟨fill, back, _, _, _, rfl⟩ := generate_eq_some h
    exact save_bytes_lt_256 _ _
  cases hg : generate_qr_code svc url format fillc backc pattern ec logo ls with
  | none =>
    refine ⟨?_, ?_, ?_⟩
    · simp [generate_qr_code_base64, hg]
    · simp [generate_qr_code_base64, hg]
    · intro bs h
      exact absurd h (by simp)
  | some bs =>
    obtain ⟨hlt, hne⟩ := hbytes bs hg
    have hemp : bs.isEmpty = false := by
      cases bs with
      | nil => exact absurd rfl hne
      | cons a t => rfl
    refine ⟨?_, ?_, ?_⟩
    · simp [generate_qr_code_base64, hg, hemp]
    · simp [generate_qr_code_base64, hg, hemp]
    · intro bs' h'
      cases h'
      exact b64_roundtrip bs hlt

/-- The default service configuration together with a minimal one used by
the concrete witnesses. -/
def svc1 : QRCodeService := { box_size := 1, border := 0 }

/-- Witness for C9: on a concrete successful run, decoding the encoded bytes
recovers them exactly. -/
theorem C9_base64_wrapper_witness :
    b64decode (b64encode ((generate_qr_code svc1 (pyStr "x") (pyStr "PNG")
        (.str (pyStr "black")) (.str (pyStr "white")) (pyStr "square") (pyStr "L")
        none (mkRat 3 10)).getD [])) =
      some ((generate_qr_code svc1 (pyStr "x") (pyStr "PNG")
        (.str (pyStr "black")) (.str (pyStr "white")) (pyStr "square") (pyStr "L")
        none (mkRat 3 10)).getD []) := by
  have hs : (generate_qr_code svc1 (pyStr "x") (pyStr "PNG")
      (.str (pyStr "black")) (.str (pyStr "white")) (pyStr "square") (pyStr "L")
      none (mkRat 3 10)).isSome = true := rfl
  have heq : generate_qr_code svc1 (pyStr "x") (pyStr "PNG")
      (.str (pyStr "black")) (.str (pyStr "white")) (pyStr "square") (pyStr "L")
      none (mkRat 3 10) =
      some ((generate_qr_code svc1 (pyStr "x") (pyStr "PNG")
        (.str (pyStr "black")) (.str (pyStr "white")) (pyStr "square") (pyStr "L")
        none (mkRat 3 10)).getD []) := by
    cases hg : generate_qr_code svc1 (pyStr "x") (pyStr "PNG")
        (.str (pyStr "black")) (.str (pyStr "white")) (pyStr "square") (pyStr "L")
        none (mkRat 3 10) with
    | none => rw [hg] at hs; simp at hs
    | some bs => simp [hg]
  exact (C9_base64_wrapper svc1 (pyStr "x") (pyStr "PNG")
    (.str (pyStr "black")) (.str (pyStr "white")) (pyStr "square") (pyStr "L")
    none (mkRat 3 10)).2.2 _ heq

/-- C10: `generate_qr_code` never lets an exception escape: an empty URL or
an invalid color makes it return None, a successful run returns complete
non-empty bytes, and every run returns either None or such bytes. -/
theorem C10_failures_return_none (svc : QRCodeService) (url format : List Nat)
    (fillc backc : ColorInput) (pattern ec : List Nat) (logo : Option (List Nat)) (ls : ℚ) :
    (url.isEmpty = true →
      generate_qr_code svc url format fillc backc pattern ec logo ls = none) ∧
    (∀ e, parse_color fillc = .error e →
      generate_qr_code svc url format fillc backc pattern ec logo ls = none) ∧
    (∀ e, parse_color backc = .error e →
      generate_qr_code svc url format fillc backc pattern ec logo ls = none) ∧
    (∀ bs, generate_qr_code svc url format fillc backc pattern ec logo ls = some bs →
      bs ≠ []) ∧
    (generate_qr_code svc url format fillc backc pattern ec logo ls = none ∨
      ∃ bs, generate_qr_code svc url format fillc backc pattern ec logo ls = some bs ∧
        bs ≠ []) := by
  refine ⟨?_, ?_, ?_, ?_, ?_⟩
  · intro hurl
    simp [generate_qr_code, generateE, hurl, Except.toOption]
  · intro e he
    unfold generate_qr_code generateE
    split
    · rfl
    · rw [he]
      rfl
  · intro e he
    unfold generate_qr_code generateE
    split
    · rfl
    · cases hf : parse_color fillc with
      | error e2 => rfl
      | ok fill =>
        rw [he]
        rfl
  · intro bs h
    obtain ⟨fill, back, _, _, _, rfl⟩ := generate_eq_some h
    exact (save_bytes_lt_256 _ _).2
  · cases hg : generate_qr_code svc url format fillc backc pattern ec logo ls with
    | none => exact Or.inl rfl
    | some bs =>
      refine Or.inr ⟨bs, rfl, ?_⟩
      obtain ⟨fill, back, _, _, _, rfl⟩ := generate_eq_some hg
      exact (save_bytes_lt_256 _ _).2

/-- Witness for C10: an empty URL and an invalid fill color both yield None,
and a concrete successful run yields non-empty bytes. -/
theorem C10_failures_return_none_witness :
    generate_qr_code svc1 [] (pyStr "PNG") (.str (pyStr "black")) (.str (pyStr "white"))
      (pyStr "square") (pyStr "L") none (mkRat 3 10) = none ∧
    generate_qr_code svc1 (pyStr "x") (pyStr "PNG") (.str (pyStr "#12")) (.str (pyStr "white"))
      (pyStr "square") (pyStr "L") none (mkRat 3 10) = none ∧
    (generate_qr_code svc1 (pyStr "x") (pyStr "PNG") (.str (pyStr "black"))
      (.str (pyStr "white")) (pyStr "square") (pyStr "L") none (mkRat 3 10)).getD [] ≠ [] := by
  refine ⟨(C10_failures_return_none svc1 [] (pyStr "PNG") (.str (pyStr "black"))
      (.str (pyStr "white")) (pyStr "square") (pyStr "L") none (mkRat 3 10)).1 rfl,
    (C10_failures_return_none svc1 (pyStr "x") (pyStr "PNG") (.str (pyStr "#12"))
      (.str (pyStr "white")) (pyStr "square") (pyStr "L") none (mkRat 3 10)).2.1
      .valueError (by decide), ?_⟩
  have hs : (generate_qr_code svc1 (pyStr "x") (pyStr "PNG") (.str (pyStr "black"))
      (.str (pyStr "white")) (pyStr "square") (pyStr "L") none (mkRat 3 10)).isSome = true := rfl
  cases hg : generate_qr_code svc1 (pyStr "x") (pyStr "PNG") (.str (pyStr "black"))
      (.str (pyStr "white")) (pyStr "square") (pyStr "L") none (mkRat 3 10) with
  | none => rw [hg] at hs; simp at hs
  | some bs =>
    simpa [hg] using (C10_failures_return_none svc1 (pyStr "x") (pyStr "PNG")
      (.str (pyStr "black")) (.str (pyStr "white")) (pyStr "square") (pyStr "L")
      none (mkRat 3 10)).2.2.2.1 bs hg

/-- C1: when a non-empty logo string is supplied and the requested
error-correction level is L, the symbol is built at level H — the token the
builder receives is H, and the whole run is identical to requesting H. -/
theorem C1_logo_escalates_ec (svc : QRCodeService) (url format : List Nat)
    (fillc backc : ColorInput) (pattern : List Nat) (l : List Nat) (ls : ℚ)
    (hl : l ≠ []) :
    ec_used (some l) (pyStr "L") = pyStr "H" ∧
    generate_qr_code svc url format fillc backc pattern (pyStr "L") (some l) ls =
      generate_qr_code svc url format fillc backc pattern (pyStr "H") (some l) ls := by
  have htr : pyTruthy (some l) = true := by
    simp [pyTruthy, hl]
  have hveL : validate_ec (pyStr "L") = pyStr "L" := by decide
  have hveH : validate_ec (pyStr "H") = pyStr "H" := by decide
  have h1 : ec_used (some l) (pyStr "L") = pyStr "H" := by
    simp only [ec_used]
    rw [hveL, if_pos ⟨htr, rfl⟩]
  have h2 : ec_used (some l) (pyStr "H") = pyStr "H" := by
    simp only [ec_used]
    rw [hveH, if_neg (fun hcon => absurd hcon.2 (by decide))]
  refine ⟨h1, ?_⟩
  simp only [generate_qr_code, generateE, final_image, rendered_symbol, h1, h2]

/-- Witness for C1 with the concrete logo string "LOGO". -/
theorem C1_logo_escalates_ec_witness :
    ec_used (some (pyStr "LOGO")) (pyStr "L") = pyStr "H" ∧
    generate_qr_code svc1 (pyStr "x") (pyStr "PNG") (.str (pyStr "black"))
      (.str (pyStr "white")) (pyStr "square") (pyStr "L") (some (pyStr "LOGO"))
      (mkRat 3 10) =
    generate_qr_code svc1 (pyStr "x") (pyStr "PNG") (.str (pyStr "black"))
      (.str (pyStr "white")) (pyStr "square") (pyStr "H") (some (pyStr "LOGO"))
      (mkRat 3 10) :=
  C1_logo_escalates_ec svc1 (pyStr "x") (pyStr "PNG") (.str (pyStr "black"))
    (.str (pyStr "white")) (pyStr "square") (pyStr "LOGO") (mkRat 3 10) (by decide)

/-- C5: an unsupported pattern name together with an unsupported
error-correction token is not an error: the run equals the run at the
defaults square and L, and with a non-empty URL and valid colors the result
is a produced image. -/
theorem C5_unsupported_fallback (svc : QRCodeService) (url format : List Nat)
    (fillc backc : ColorInput) (pattern ec : List Nat) (logo : Option (List Nat)) (ls : ℚ)
    (hp : pattern ∉ PATTERN_STYLES_KEYS) (he : ec ∉ ERROR_CORRECTION_KEYS) :
    generate_qr_code svc url format fillc backc pattern ec logo ls =
      generate_qr_code svc url format fillc backc (pyStr "square") (pyStr "L") logo ls ∧
    (url.isEmpty = false →
      ∀ fill back, parse_color fillc = .ok fill → parse_color backc = .ok back →
        (generate_qr_code svc url format fillc backc pattern ec logo ls).isSome = true) := by
  have hvp : validate_pattern pattern = pyStr "square" := by
    unfold validate_pattern
    rw [if_neg hp]
  have hvp2 : validate_pattern (pyStr "square") = pyStr "square" := by
    unfold validate_pattern
    rw [if_pos (by decide)]
  have hve : validate_ec ec = pyStr "L" := by
    unfold validate_ec
    rw [if_neg he]
  have hve2 : validate_ec (pyStr "L") = pyStr "L" := by
    unfold validate_ec
    rw [if_pos (by decide)]
  constructor
  · simp only [generate_qr_code, generateE, final_image, rendered_symbol, ec_used,
      hvp, hvp2, hve, hve2]
  · intro hurl fill back hf hb
    simp [generate_qr_code, generateE, hurl, hf, hb, Except.toOption]

/-- Witness for C5 with the unsupported pattern "hexagon" and the
unsupported error-correction token "Z". -/
theorem C5_unsupported_fallback_witness :
    (generate_qr_code svc1 (pyStr "x") (pyStr "PNG") (.str (pyStr "black"))
       (.str (pyStr "white")) (pyStr "hexagon") (pyStr "Z") none (mkRat 3 10) =
     generate_qr_code svc1 (pyStr "x") (pyStr "PNG") (.str (pyStr "black"))
       (.str (pyStr "white")) (pyStr "square") (pyStr "L") none (mkRat 3 10)) ∧
    (generate_qr_code svc1 (pyStr "x") (pyStr "PNG") (.str (pyStr "black"))
       (.str (pyStr "white")) (pyStr "hexagon") (pyStr "Z") none (mkRat 3 10)).isSome
      = true := by
  have h := C5_unsupported_fallback svc1 (pyStr "x") (pyStr "PNG") (.str (pyStr "black"))
    (.str (pyStr "white")) (pyStr "hexagon") (pyStr "Z") none (mkRat 3 10)
    (by decide) (by decide)
  exact ⟨h.1, h.2 (by decide) (0, 0, 0) (255, 255, 255) (by decide) (by decide)⟩

/-- C6: when the supplied logo string fails to decode (invalid base64 or not
a decodable image), `generate_qr_code` still succeeds and returns the plain
rendered symbol with no logo embedded. -/
theorem C6_logo_decode_failure_skipped (svc : QRCodeService) (url format : List Nat)
    (fillc backc : ColorInput) (pattern ec : List Nat) (l : List Nat) (ls : ℚ)
    (fill back : RGBv)
    (hurl : url.isEmpty = false)
    (hf : parse_color fillc = .ok fill) (hb : parse_color backc = .ok back)
    (hl : l.isEmpty = false) (hfail : decode_logo l = none) :
    generate_qr_code svc url format fillc backc pattern ec (some l) ls =
      some (save_bytes format (rendered_symbol svc url pattern ec (some l) fill back)) := by
  simp only [generate_qr_code, generateE, hurl, hf, hb, final_image, hl, hfail]
  simp [Except.toOption]

/-- Witness for C6: the string "!!!" decodes to empty bytes which are not a
decodable image, and the run still succeeds with the plain symbol. -/
theorem C6_logo_decode_failure_skipped_witness :
    generate_qr_code svc1 (pyStr "x") (pyStr "PNG") (.str (pyStr "black"))
      (.str (pyStr "white")) (pyStr "square") (pyStr "L") (some (pyStr "!!!"))
      (mkRat 3 10) =
    some (save_bytes (pyStr "PNG")
      (rendered_symbol svc1 (pyStr "x") (pyStr "square") (pyStr "L")
        (some (pyStr "!!!")) (0, 0, 0) (255, 255, 255))) :=
  C6_logo_decode_failure_skipped svc1 (pyStr "x") (pyStr "PNG") (.str (pyStr "black"))
    (.str (pyStr "white")) (pyStr "square") (pyStr "L") (pyStr "!!!") (mkRat 3 10)
    (0, 0, 0) (255, 255, 255) (by decide) (by decide) (by decide) (by decide) rfl

/-- C8: requesting JPEG or JPG output of an RGBA image serializes the image
flattened onto a white RGB background: fully transparent pixels become
white, fully opaque pixels keep their RGB value, and no error is raised. -/
theorem C8_jpeg_rgba_white_background (format : List Nat) (img : Image)
    (hf : pyUpper format = pyStr "JPEG" ∨ pyUpper format = pyStr "JPG")
    (hm : img.mode = .RGBA) :
    save_bytes format img = pilSave format (flatten_white img) ∧
    (flatten_white img).mode = .RGB ∧
    ∀ x y, x < img.width → y < img.height →
      ((img.px x y).a = 0 → rgbOf ((flatten_white img).px x y) = (255, 255, 255)) ∧
      ((img.px x y).a = 255 → rgbOf ((flatten_white img).px x y) = rgbOf (img.px x y)) := by
  refine ⟨by unfold save_bytes; rw [if_pos ⟨hf, hm⟩], rfl, ?_⟩
  intro x y hx hy
  have hin : ((0 : Int) ≤ (x : Int) ∧ (x : Int) < 0 + img.width ∧
      (0 : Int) ≤ (y : Int) ∧ (y : Int) < 0 + img.height) :=
    ⟨by omega, by omega, by omega, by omega⟩
  have hpx : (flatten_white img).px x y =
      blendPix whitePx (img.px x y) ((img.px x y).a) := by
    simp only [flatten_white, paste]
    rw [if_pos hin]
    simp
  constructor
  · intro ha
    rw [hpx, ha]
    simp only [blendPix, blendChan, whitePx, rgbOf, Prod.mk.injEq]
    refine ⟨?_, ?_, ?_⟩ <;> omega
  · intro ha
    rw [hpx, ha]
    simp only [blendPix, blendChan, whitePx, rgbOf, Prod.mk.injEq]
    refine ⟨?_, ?_, ?_⟩ <;> omega

/-- Witness for C8 on a concrete 2 by 2 RGBA image with one transparent and
one opaque pixel, serialized as "jpeg". -/
def testRGBA : Image :=
  ⟨2, 2, .RGBA, fun x _ => if x = 0 then ⟨10, 20, 30, 0⟩ else ⟨10, 20, 30, 255⟩⟩

theorem C8_jpeg_rgba_white_background_witness :
    save_bytes (pyStr "jpeg") testRGBA = pilSave (pyStr "jpeg") (flatten_white testRGBA) ∧
    (flatten_white testRGBA).mode = .RGB ∧
    ((testRGBA.px 0 0).a = 0 → rgbOf ((flatten_white testRGBA).px 0 0) = (255, 255, 255)) ∧
    ((testRGBA.px 1 0).a = 255 → rgbOf ((flatten_white testRGBA).px 1 0) = rgbOf (testRGBA.px 1 0)) := by
  have h := C8_jpeg_rgba_white_background (pyStr "jpeg") testRGBA (Or.inl (by decide)) rfl
  exact ⟨h.1, h.2.1, (h.2.2 0 0 (by decide) (by decide)).1,
    (h.2.2 1 0 (by decide) (by decide)).2⟩

end QRGen
